import Mathlib

/-!
Verification development for the chatkit widgets.

Shallow embedding of the autocomplete controller
(`src/components/autocomplete/autocomplete.go`) and of the media viewer's
save-to-file routine (the `embed` package viewer file).

The controller is modelled as a state machine: an `Autocompleter` record
holds the Go struct's observable fields, an `Op` is one public method
call, `step` executes it and `run` executes a sequence starting from the
state built by `New`.  External collaborators are modelled as follows:

* the GTK text buffer is a `List Char`; iterator positions are character
  offsets (a position `n` sits between the characters at indices `n - 1`
  and `n`);
* `gtk_text_iter_forward_find_char` / `backward_find_char` first move the
  iterator by one position and then test the character at the new
  position, repeating until the predicate holds (iterator left at the
  offset of the matching character) or the corresponding buffer end is
  reached;
* `gtk_text_buffer_get_text start end` yields the characters in the
  half-open range `[start, end)`;
* the popover's GTK visibility is the `popVisible` field, toggled only by
  `Popup`/`Popdown` inside `show`/`hide`;
* candidate `Data` values are opaque to the controller and abstracted by
  numeric identifiers; a list-box row holds the `Data` it renders;
* cancellable contexts created by `Autocomplete` are given ghost numeric
  identifiers so that the set of not-yet-cancelled session contexts is
  observable, and every invocation of a searcher is recorded in a ghost
  `searchLog` field (bounds and query of the call).
-/

namespace Chatkit

/-- Candidate data (`Data` in the source) is opaque to the controller and
abstracted by a numeric identifier. -/
abbrev Data := Nat

/-- `WhitespaceRune` (line 25): the registry key meaning "activate on every
word". -/
def WhitespaceRune : Char := ' '

/-- `AutocompleterWidth` (line 121). -/
def AutocompleterWidth : Nat := 250

/-- `MaxResults` (line 124): "the maximum number of search results". -/
def MaxResults : Nat := 8

/-- A searcher.  `Search(ctx, str)` receives the matched bounds through the
context value injected at lines 315-318; the model passes them as an
explicit first argument.  The trigger rune is the registry key.  The
cancellation token and deadline carried by the context are not observable
by a pure searcher and are not modelled. -/
structure Searcher where
  search : Nat × Nat → String → List Data

/-- `SelectedData` (lines 64-71); bounds are buffer offsets. -/
structure SelectedData where
  bounds : Nat × Nat
  data : Data

/-- The configuration of an `Autocompleter` fixed at construction and
registration time: the searcher registry (`a.searchers`), the selection
callbacks (`a.onSelects`, in registration order), `a.minChars` and
`a.cancelOnChange`.  `a.timeout` carries no observable behaviour in the
model and is omitted. -/
structure Config where
  searchers : Char → Option Searcher
  onSelects : List (SelectedData → Bool)
  minChars : Nat
  cancelOnChange : Bool

/-- Observable state of an `Autocompleter` (lines 79-101).
`buffer` is the external text buffer's content, `startPos`/`endPos` are
`a.start`/`a.end`, `selected` is the list box's selected-row index,
`cancelTok` is the ghost identifier of the context whose cancel function
is stored in `a.cancel` (`none` when `a.cancel == nil`), `liveSessions`
lists the ghost identifiers of session contexts created by `Autocomplete`
and not yet cancelled, `nextSession` is the next fresh ghost identifier,
`poppedUp` is `a.poppedUp`, `popVisible` is `a.popover.IsVisible()`, and
`searchLog` is a ghost trace of searcher invocations (bounds, query). -/
structure Autocompleter where
  buffer : List Char
  startPos : Nat
  endPos : Nat
  listRows : List Data
  selected : Option Nat
  cancelTok : Option Nat
  liveSessions : List Nat
  nextSession : Nat
  poppedUp : Bool
  popVisible : Bool
  paused : Bool
  searchLog : List ((Nat × Nat) × String)
deriving DecidableEq

/-- Model of Go's `unicode.IsSpace` on the Latin-1 range (space, tab,
newline, vertical tab, form feed, carriage return, NEL, NBSP).  The
remaining Unicode white-space code points are above this range and do not
occur in any input considered here. -/
def isSpace (c : Char) : Bool :=
  c = ' ' || c = Char.ofNat 0x09 || c = Char.ofNat 0x0A || c = Char.ofNat 0x0B ||
  c = Char.ofNat 0x0C || c = Char.ofNat 0x0D || c = Char.ofNat 0x85 ||
  c = Char.ofNat 0xA0

/-- `gtk_text_buffer_get_iter_at_offset`: an offset past the end of the
buffer yields the end iterator. -/
def iterAtOffset (buf : List Char) (n : Nat) : Nat := min n buf.length

/-- `gtk_text_iter_forward_char`: at the end iterator the position does not
move. -/
def forwardChar (buf : List Char) (n : Nat) : Nat := min (n + 1) buf.length

/-- `gtk_text_iter_backward_char`: at the start iterator the position does
not move. -/
def backwardChar (n : Nat) : Nat := n - 1

/-- `a.start.BackwardFindChar` with the predicate of lines 263-276: step
back one position at a time and read the character there; on white space
store the word-boundary searcher (a possibly missing map lookup) and stop;
on a registered trigger rune store that searcher and stop; otherwise keep
the failed lookup and continue towards the buffer start.  Returns whether
the scan stopped, the final iterator position, and the final value of the
`searcher` variable. -/
def backwardFind (searchers : Char → Option Searcher) (buf : List Char) :
    Nat → Bool × Nat × Option Searcher
  | 0 => (false, 0, none)
  | c + 1 =>
    let r := buf.getD c ' '
    if isSpace r then (true, c, searchers WhitespaceRune)
    else
      match searchers r with
      | some sr => (true, c, some sr)
      | none => backwardFind searchers buf c

/-- `a.end.ForwardFindChar` with the white-space predicate of lines
292-294: advance the iterator one position and test the character at the
new position, so the characters at offsets `c + 1, c + 2, …` are examined.
On success the iterator rests at the offset of the space found; on failure
it rests at the end of the buffer.  The loop is written with an explicit
fuel argument (`buf.length - c` steps always suffice: whenever the
forward step succeeds, `buf.length - c` shrinks by one and is still
positive) so that the recursion is structural. -/
def forwardFindGo (buf : List Char) : Nat → Nat → Bool × Nat
  | 0, _ => (false, buf.length)
  | fuel + 1, c =>
    if c + 1 < buf.length then
      if isSpace (buf.getD (c + 1) ' ') then (true, c + 1)
      else forwardFindGo buf fuel (c + 1)
    else (false, buf.length)

/-- See `forwardFindGo`. -/
def forwardFind (buf : List Char) (c : Nat) : Bool × Nat :=
  forwardFindGo buf (buf.length - c) c

/-- `a.buffer.Text(start, end, false)`: the characters in `[a, b)`. -/
def textBetween (buf : List Char) (a b : Nat) : String :=
  String.mk ((buf.drop a).take (b - a))

/-- Insertion into the text buffer at a character offset
(`gtk_text_buffer_insert`). -/
def insertAt (buf : List Char) (pos : Nat) (c : Char) : List Char :=
  buf.take pos ++ c :: buf.drop pos

/-- Outcome of lines 256-306 of `Autocomplete`: either an abort (the
popover is to be hidden), carrying the final values of `a.start`/`a.end`,
or the searcher to invoke together with the final match bounds and the
query text. -/
inductive Extraction where
  | abort (st en : Nat)
  | found (sr : Searcher) (st en : Nat) (text : String)

/-- Lines 256-306 of `Autocomplete`: place `a.start` and `a.end` at the
cursor, scan backwards for a trigger, fall back to the word-boundary
searcher when the scan fails or found no searcher, drop the trigger from
the match start, scan forward for the end of the word (stepping back over
a found space), extract the query and enforce `minChars`, then include the
trigger in the match range again. -/
def extractWord (cfg : Config) (buf : List Char) (cursorIn : Nat) : Extraction :=
  let cursor := iterAtOffset buf cursorIn
  match backwardFind cfg.searchers buf cursor with
  | (fnd, st0, sropt) =>
    match (if fnd && sropt.isSome then sropt else cfg.searchers WhitespaceRune) with
    | none => .abort st0 cursor
    | some sr =>
      let st1 := forwardChar buf st0
      let fwd := forwardFind buf cursor
      let en := if fwd.1 then backwardChar fwd.2 else fwd.2
      let text := textBetween buf st1 en
      if text.length < cfg.minChars then .abort st1 en
      else .found sr (backwardChar st1) en text

namespace Autocompleter

/-- The state built by `New` (lines 127-177): popover hidden, no rows, no
session, not paused. -/
def New : Autocompleter where
  buffer := []
  startPos := 0
  endPos := 0
  listRows := []
  selected := none
  cancelTok := none
  liveSessions := []
  nextSession := 0
  poppedUp := false
  popVisible := false
  paused := false
  searchLog := []

/-- `a.hide()` (lines 390-395). -/
def hide (s : Autocompleter) : Autocompleter :=
  if s.poppedUp then { s with popVisible := false, poppedUp := false } else s

/-- `a.show()` (lines 397-410); the pointing-rectangle computation is
display-only. -/
def «show» (s : Autocompleter) : Autocompleter :=
  if s.poppedUp then s else { s with poppedUp := true, popVisible := true }

/-- `a.clear()` (lines 412-418): every row is removed from the list box;
removing the selected row drops the list-box selection. -/
def clear (s : Autocompleter) : Autocompleter :=
  { s with listRows := [], selected := none }

/-- `IsVisible` (lines 346-348). -/
def IsVisible (s : Autocompleter) : Bool :=
  (s.listRows.length != 0) && s.popVisible

/-- `Clear` (lines 380-388). -/
def Clear (s : Autocompleter) : Bool × Autocompleter :=
  if !s.IsVisible then (false, s)
  else (true, hide (clear s))

/-- `Pause` (lines 181-184). -/
def Pause (s : Autocompleter) : Autocompleter :=
  (Clear { s with paused := true }).2

/-- `Unpause` (lines 187-189). -/
def Unpause (s : Autocompleter) : Autocompleter :=
  { s with paused := false }

/-- The `SelectedData` built in `selectRow` (lines 365-368); an
out-of-range index would be a GTK panic and is defaulted. -/
def selData (s : Autocompleter) (ix : Nat) : SelectedData :=
  { bounds := (s.startPos, s.endPos), data := s.listRows.getD ix 0 }

/-- The callback loop of `selectRow` (lines 370-377): callbacks run in
registration order; the first one returning true causes a single space to
be inserted at the match end and the autocompleter to be cleared, and ends
the loop. -/
def selectLoop (fs : List (SelectedData → Bool)) (d : SelectedData)
    (s : Autocompleter) : Autocompleter :=
  match fs with
  | [] => s
  | f :: rest =>
    if f d then (Clear { s with buffer := insertAt s.buffer d.bounds.2 ' ' }).2
    else selectLoop rest d s

/-- `selectRow` (lines 359-377); `none` models a nil row argument. -/
def selectRow (cfg : Config) (s : Autocompleter) (r : Option Nat) :
    Autocompleter :=
  match r with
  | none => (Clear s).2
  | some ix => selectLoop cfg.onSelects (selData s ix) s

/-- `Select` (lines 351-357). -/
def Select (cfg : Config) (s : Autocompleter) : Bool × Autocompleter :=
  if s.listRows.length == 0 || !s.IsVisible then (false, s)
  else (true, selectRow cfg s s.selected)

/-- `move` (lines 423-456); the focus dance at lines 449-453 is
display-only. -/
def move (s : Autocompleter) (down : Bool) : Bool × Autocompleter :=
  if s.listRows.length == 0 then (false, s)
  else
    match s.selected with
    | none => (true, { s with selected := some 0 })
    | some ix =>
      let ix :=
        if down then (if ix + 1 = s.listRows.length then 0 else ix + 1)
        else (if ix = 0 then s.listRows.length - 1 else ix - 1)
      (true, { s with selected := some ix })

/-- `MoveUp` (line 420). -/
def MoveUp (s : Autocompleter) : Bool × Autocompleter := move s false

/-- `MoveDown` (line 421). -/
def MoveDown (s : Autocompleter) : Bool × Autocompleter := move s true

/-- Lines 244-247 of `Autocomplete`: cancel and drop any previous session
context. -/
def cancelPrev (s : Autocompleter) : Autocompleter :=
  match s.cancelTok with
  | some id =>
    { s with cancelTok := none, liveSessions := s.liveSessions.erase id }
  | none => s

/-- `Autocomplete` (lines 243-343).  The content of the external text
buffer and the cursor offset (`cursor-position` property) are inputs of
the call.  A fresh ghost identifier is attached to each context created by
the call: the `WithCancel` context stored into `a.cancel` when
`cancelOnChange` is set, and the `WithTimeout` context, which the deferred
`cancel` at line 321 always cancels before the call returns. -/
def Autocomplete (cfg : Config) (s : Autocompleter) (buf : List Char)
    (cursorIn : Nat) : Autocompleter :=
  let s := cancelPrev { s with buffer := buf }
  let s := clear s
  if s.paused then hide s
  else
    match extractWord cfg buf cursorIn with
    | .abort st en => hide { s with startPos := st, endPos := en }
    | .found sr st en text =>
      let s := { s with startPos := st, endPos := en }
      let s :=
        if cfg.cancelOnChange then
          { s with cancelTok := some s.nextSession,
                   liveSessions := s.liveSessions ++ [s.nextSession],
                   nextSession := s.nextSession + 1 }
        else s
      let tid := s.nextSession
      let s := { s with liveSessions := s.liveSessions ++ [tid],
                        nextSession := tid + 1 }
      let results := sr.search (st, en) text
      let s := { s with searchLog := s.searchLog ++ [((st, en), text)] }
      let s :=
        if results.length = 0 then hide s
        else «show» { s with listRows := results, selected := some 0 }
      { s with liveSessions := s.liveSessions.erase tid }

/-- One public operation on the controller.  An `autocomplete` operation
carries the buffer content and cursor offset observed at call time. -/
inductive Op where
  | autocomplete (buf : List Char) (cursor : Nat)
  | clear
  | pause
  | unpause
  | select
  | moveUp
  | moveDown

/-- Execute one public operation (dropping the Bool results). -/
def step (cfg : Config) (s : Autocompleter) : Op → Autocompleter
  | .autocomplete buf cursor => Autocomplete cfg s buf cursor
  | .clear => (Clear s).2
  | .pause => Pause s
  | .unpause => Unpause s
  | .select => (Select cfg s).2
  | .moveUp => (MoveUp s).2
  | .moveDown => (MoveDown s).2

/-- Execute a sequence of public operations on a fresh autocompleter. -/
def run (cfg : Config) (ops : List Op) : Autocompleter :=
  ops.foldl (step cfg) New

/-- Session bookkeeping: the not-yet-cancelled session contexts are
exactly the one whose cancel function sits in `a.cancel`, and ghost
identifiers are fresh. -/
def SessInv (s : Autocompleter) : Prop :=
  s.liveSessions = s.cancelTok.toList ∧ ∀ id ∈ s.cancelTok, id < s.nextSession

/-- Inductive invariant of the reachable controller states: the `poppedUp`
flag mirrors GTK visibility, the popover is visible exactly when rows are
rendered and the controller is not paused, a paused controller renders no
rows, and the session bookkeeping is consistent. -/
def Inv (s : Autocompleter) : Prop :=
  s.popVisible = s.poppedUp
  ∧ (s.popVisible = true ↔ s.listRows ≠ [] ∧ s.paused = false)
  ∧ (s.paused = true → s.listRows = [])
  ∧ SessInv s

end Autocompleter

/-! ### Media viewer: `Viewer.saveToFile`

The routine is modelled as a pure function from the outcomes of its three
external calls (`http.Get`, `os.Create`, `io.Copy`) to the trace of its
observable effects, in execution order.  The deferred `Close` calls are
resource cleanup with no observable effect and are omitted.  The Go method
has no return values, so no error can propagate to its caller; accordingly
the model's codomain is just the effect trace. -/

namespace Embed

/-- One observable effect of `saveToFile`: adding a toast, logging a line,
calling `os.Create` on the output path, or calling `io.Copy` into the
output file. -/
inductive Effect where
  | addToast (msg : String)
  | logLine (msg : String)
  | createFile
  | writeFile
deriving DecidableEq

/-- Outcomes of the external calls made by `saveToFile`; an `Except.error`
carries the error text. -/
structure SaveEnv where
  httpGet : Except String Unit
  osCreate : Except String Unit
  ioCopy : Except String Unit

/-- Toast shown when `http.Get` fails (sic "occured", as in the source). -/
def downloadErrToast : String := "An error occured while downloading picture data"

/-- Toast shown when `os.Create` fails. -/
def createErrToast : String := "An I/O error occurred while creating the output file"

/-- Toast shown when `io.Copy` fails. -/
def writeErrToast : String := "An I/O error occurred while saving the file"

/-- Toast shown on success. -/
def savedToast : String := "Picture saved successfully"

/-- `Viewer.saveToFile` (lines 264-291 of the viewer file). -/
def saveToFile (env : SaveEnv) : List Effect :=
  match env.httpGet with
  | .error e => [.addToast downloadErrToast, .logLine (downloadErrToast ++ ": " ++ e)]
  | .ok _ =>
    .createFile ::
    match env.osCreate with
    | .error e => [.addToast createErrToast, .logLine (createErrToast ++ ": " ++ e)]
    | .ok _ =>
      .writeFile ::
      match env.ioCopy with
      | .error e => [.addToast writeErrToast, .logLine (writeErrToast ++ ": " ++ e)]
      | .ok _ => [.addToast savedToast]

/-- Whether an effect is a toast notification. -/
def Effect.isToast : Effect → Bool
  | .addToast _ => true
  | _ => false

/-- A `SaveEnv` whose network fetch fails. -/
def failingFetchEnv : SaveEnv where
  httpGet := .error "connection refused"
  osCreate := .ok ()
  ioCopy := .ok ()

end Embed

/-! ### Concrete configurations and states used by the witnesses -/

/-- A registry holding a single searcher for the trigger rune `@`. -/
def atRegistry (sr : Searcher) : Char → Option Searcher :=
  fun c => if c = '@' then some sr else none

/-- A searcher producing one candidate. -/
def atSearcher : Searcher := ⟨fun _ _ => [1]⟩

/-- A searcher producing two candidates. -/
def twoSearcher : Searcher := ⟨fun _ _ => [41, 42]⟩

/-- A searcher producing nine candidates, one more than `MaxResults`. -/
def nineSearcher : Searcher := ⟨fun _ _ => [0, 1, 2, 3, 4, 5, 6, 7, 8]⟩

/-- A configuration with no searchers and no callbacks. -/
def trivialCfg : Config where
  searchers := fun _ => none
  onSelects := []
  minChars := 0
  cancelOnChange := false

/-- The configuration of the spec's word-extraction example: trigger `@`,
minimum length 1. -/
def c3cfg : Config where
  searchers := atRegistry atSearcher
  onSelects := []
  minChars := 1
  cancelOnChange := false

/-- The buffer of the spec's word-extraction example; the cursor between
the `r` and the `l` of `world` is offset 10. -/
def c3buf : List Char := "hello @world foo".data

/-- Configuration whose searcher returns nine candidates. -/
def c4cfg : Config where
  searchers := atRegistry nineSearcher
  onSelects := []
  minChars := 1
  cancelOnChange := true

/-- Buffer for the over-`MaxResults` run. -/
def c4buf : List Char := "@abc".data

/-- Configuration producing a visible two-row popover on `visOps`. -/
def visCfg : Config where
  searchers := atRegistry twoSearcher
  onSelects := []
  minChars := 1
  cancelOnChange := false

/-- One autocomplete trigger at the end of the buffer `@hi`. -/
def visOps : List Autocompleter.Op := [Autocompleter.Op.autocomplete "@hi".data 3]

/-- A selection callback that never handles. -/
def cbFalse : SelectedData → Bool := fun _ => false

/-- A selection callback that always handles. -/
def cbTrue : SelectedData → Bool := fun _ => true

/-- Callbacks: one refusing, one handling, one more after it. -/
def c5cfg : Config where
  searchers := fun _ => none
  onSelects := [cbFalse, cbTrue, cbTrue]
  minChars := 0
  cancelOnChange := false

/-- Callbacks that all refuse. -/
def c5cfgAllFalse : Config where
  searchers := fun _ => none
  onSelects := [cbFalse, cbFalse]
  minChars := 0
  cancelOnChange := false

/-- A visible one-row state with match bounds (2, 5) over `ab cde`. -/
def c5s : Autocompleter :=
  { Autocompleter.New with
      buffer := "ab cde".data
      startPos := 2
      endPos := 5
      listRows := [7]
      selected := some 0
      poppedUp := true
      popVisible := true }

/-- A three-row state with the selection on the last row. -/
def c8s : Autocompleter :=
  { Autocompleter.New with
      listRows := [5, 6, 7]
      selected := some 2
      poppedUp := true
      popVisible := true }

namespace Autocompleter

/-! ### Projection lemmas -/

@[simp] theorem clear_buffer (s : Autocompleter) : (clear s).buffer = s.buffer := rfl

@[simp] theorem clear_startPos (s : Autocompleter) : (clear s).startPos = s.startPos := rfl

@[simp] theorem clear_endPos (s : Autocompleter) : (clear s).endPos = s.endPos := rfl

@[simp] theorem clear_listRows (s : Autocompleter) : (clear s).listRows = [] := rfl

@[simp] theorem clear_selected (s : Autocompleter) : (clear s).selected = none := rfl

@[simp] theorem clear_cancelTok (s : Autocompleter) : (clear s).cancelTok = s.cancelTok := rfl

@[simp] theorem clear_liveSessions (s : Autocompleter) : (clear s).liveSessions = s.liveSessions := rfl

@[simp] theorem clear_nextSession (s : Autocompleter) : (clear s).nextSession = s.nextSession := rfl

@[simp] theorem clear_poppedUp (s : Autocompleter) : (clear s).poppedUp = s.poppedUp := rfl

@[simp] theorem clear_popVisible (s : Autocompleter) : (clear s).popVisible = s.popVisible := rfl

@[simp] theorem clear_paused (s : Autocompleter) : (clear s).paused = s.paused := rfl

@[simp] theorem clear_searchLog (s : Autocompleter) : (clear s).searchLog = s.searchLog := rfl

@[simp] theorem cancelPrev_buffer (s : Autocompleter) : (cancelPrev s).buffer = s.buffer := by
  unfold cancelPrev; cases s.cancelTok <;> rfl

@[simp] theorem cancelPrev_startPos (s : Autocompleter) : (cancelPrev s).startPos = s.startPos := by
  unfold cancelPrev; cases s.cancelTok <;> rfl

@[simp] theorem cancelPrev_endPos (s : Autocompleter) : (cancelPrev s).endPos = s.endPos := by
  unfold cancelPrev; cases s.cancelTok <;> rfl

@[simp] theorem cancelPrev_listRows (s : Autocompleter) : (cancelPrev s).listRows = s.listRows := by
  unfold cancelPrev; cases s.cancelTok <;> rfl

@[simp] theorem cancelPrev_selected (s : Autocompleter) : (cancelPrev s).selected = s.selected := by
  unfold cancelPrev; cases s.cancelTok <;> rfl

@[simp] theorem cancelPrev_nextSession (s : Autocompleter) :
    (cancelPrev s).nextSession = s.nextSession := by
  unfold cancelPrev; cases s.cancelTok <;> rfl

@[simp] theorem cancelPrev_poppedUp (s : Autocompleter) : (cancelPrev s).poppedUp = s.poppedUp := by
  unfold cancelPrev; cases s.cancelTok <;> rfl

@[simp] theorem cancelPrev_popVisible (s : Autocompleter) :
    (cancelPrev s).popVisible = s.popVisible := by
  unfold cancelPrev; cases s.cancelTok <;> rfl

@[simp] theorem cancelPrev_paused (s : Autocompleter) : (cancelPrev s).paused = s.paused := by
  unfold cancelPrev; cases s.cancelTok <;> rfl

@[simp] theorem cancelPrev_searchLog (s : Autocompleter) :
    (cancelPrev s).searchLog = s.searchLog := by
  unfold cancelPrev; cases s.cancelTok <;> rfl

@[simp] theorem cancelPrev_cancelTok (s : Autocompleter) : (cancelPrev s).cancelTok = none := by
  unfold cancelPrev; cases h : s.cancelTok <;> simp [h]

theorem cancelPrev_liveSessions (s : Autocompleter) (h : SessInv s) :
    (cancelPrev s).liveSessions = [] := by
  obtain ⟨ha, _⟩ := h
  unfold cancelPrev
  cases hc : s.cancelTok with
  | none => rw [ha, hc]; rfl
  | some id => simp [ha, hc, Option.toList]

/-- When the `poppedUp` flag mirrors GTK visibility, `hide` unconditionally
results in a hidden popover. -/
theorem hide_eq (s : Autocompleter) (h : s.popVisible = s.poppedUp) :
    hide s = { s with popVisible := false, poppedUp := false } := by
  unfold hide
  by_cases hb : s.poppedUp = true
  · simp [hb]
  · have hb' : s.poppedUp = false := by revert hb; cases s.poppedUp <;> simp
    rw [if_neg (by simp [hb'])]
    cases s
    simp_all

/-- When the `poppedUp` flag mirrors GTK visibility, `show` unconditionally
results in a visible popover. -/
theorem show_eq (s : Autocompleter) (h : s.popVisible = s.poppedUp) :
    «show» s = { s with popVisible := true, poppedUp := true } := by
  unfold «show»
  by_cases hb : s.poppedUp = true
  · rw [if_pos (by simp [hb])]
    have h' : s.popVisible = true := h.trans hb
    cases s
    simp_all
  · have hb' : s.poppedUp = false := by revert hb; cases s.poppedUp <;> simp
    rw [if_neg (by simp [hb'])]

/-- `SessInv` only concerns the session fields, and tolerates a grown
fresh-identifier counter. -/
theorem sessInv_congr (s t : Autocompleter) (h : SessInv s)
    (hl : t.liveSessions = s.liveSessions) (hc : t.cancelTok = s.cancelTok)
    (hn : s.nextSession ≤ t.nextSession) : SessInv t := by
  obtain ⟨ha, hb⟩ := h
  refine ⟨by rw [hl, hc, ha], ?_⟩
  intro id hid
  rw [hc] at hid
  exact lt_of_lt_of_le (hb id hid) hn

/-! ### Invariant preservation -/

theorem inv_New : Inv New := by
  simp [Inv, SessInv, New]

theorem inv_Clear (s : Autocompleter) (h : Inv s) : Inv (Clear s).2 := by
  obtain ⟨h1, h2, h3, h4⟩ := h
  unfold Clear
  by_cases hv : s.IsVisible = true
  · have hpv : s.popVisible = true := by
      simp only [IsVisible, Bool.and_eq_true] at hv; exact hv.2
    have hpu : s.poppedUp = true := by rw [← h1]; exact hpv
    rw [if_neg (by simp [hv])]
    show Inv (hide (clear s))
    rw [hide_eq _ (by simp [hpv, hpu])]
    exact ⟨rfl, by simp, by simp,
      sessInv_congr s _ h4 (by simp) (by simp) (by simp)⟩
  · have hv' : s.IsVisible = false := by revert hv; cases s.IsVisible <;> simp
    rw [if_pos (by simp [hv'])]
    exact ⟨h1, h2, h3, h4⟩

theorem inv_Pause (s : Autocompleter) (h : Inv s) : Inv (Pause s) := by
  obtain ⟨h1, h2, h3, h4⟩ := h
  unfold Pause Clear
  by_cases hv : ({ s with paused := true } : Autocompleter).IsVisible = true
  · have hpv : s.popVisible = true := by
      simp only [IsVisible, Bool.and_eq_true] at hv; exact hv.2
    have hpu : s.poppedUp = true := by rw [← h1]; exact hpv
    rw [if_neg (by simp [hv])]
    show Inv (hide (clear { s with paused := true }))
    rw [hide_eq _ (by simp [hpv, hpu])]
    exact ⟨rfl, by simp, by simp,
      sessInv_congr s _ h4 (by simp) (by simp) (by simp)⟩
  · have hv' : ({ s with paused := true } : Autocompleter).IsVisible = false := by
      revert hv; cases ({ s with paused := true } : Autocompleter).IsVisible <;> simp
    rw [if_pos (by simp [hv'])]
    show Inv { s with paused := true }
    have hrows : s.listRows = [] := by
      by_cases hp : s.paused = true
      · exact h3 hp
      · have hp' : s.paused = false := by revert hp; cases s.paused <;> simp
        by_cases hr : s.listRows = []
        · exact hr
        · exact absurd (h2.2 ⟨hr, hp'⟩) (by
            intro hq
            rw [show ({ s with paused := true } : Autocompleter).IsVisible
                  = s.IsVisible from rfl] at hv'
            simp [IsVisible, hq, List.length_eq_zero, hr] at hv')
    have hpv : s.popVisible = false := by
      by_cases hq : s.popVisible = true
      · exact absurd (h2.1 hq).1 (by simp [hrows])
      · revert hq; cases s.popVisible <;> simp
    exact ⟨by simpa using h1, by simp [hpv, hrows], by simp [hrows],
      sessInv_congr s _ h4 (by simp) (by simp) (by simp)⟩

theorem inv_Unpause (s : Autocompleter) (h : Inv s) : Inv (Unpause s) := by
  obtain ⟨h1, h2, h3, h4⟩ := h
  unfold Unpause
  refine ⟨by simpa using h1, ?_, by simp,
    sessInv_congr s _ h4 (by simp) (by simp) (by simp)⟩
  constructor
  · intro hpv
    exact ⟨(h2.1 hpv).1, rfl⟩
  · rintro ⟨hr, -⟩
    by_cases hp : s.paused = true
    · exact absurd (h3 hp) (by
        intro hnil
        exact hr hnil)
    · have hp' : s.paused = false := by revert hp; cases s.paused <;> simp
      exact h2.2 ⟨hr, hp'⟩

theorem inv_move (s : Autocompleter) (down : Bool) (h : Inv s) : Inv (move s down).2 := by
  unfold move
  by_cases hr : (s.listRows.length == 0) = true
  · rw [if_pos (by simp [hr])]; exact h
  · rw [if_neg (by simp at hr; simp [hr])]
    cases s.selected with
    | none => exact h
    | some ix => exact h

theorem inv_selectLoop (fs : List (SelectedData → Bool)) (d : SelectedData)
    (s : Autocompleter) (h : Inv s) : Inv (selectLoop fs d s) := by
  induction fs with
  | nil => exact h
  | cons f rest ih =>
    unfold selectLoop
    by_cases hf : f d = true
    · rw [if_pos (by simp [hf])]
      exact inv_Clear _ h
    · rw [if_neg (by simp [hf])]
      exact ih

theorem inv_Select (cfg : Config) (s : Autocompleter) (h : Inv s) :
    Inv (Select cfg s).2 := by
  unfold Select
  by_cases hg : (s.listRows.length == 0 || !s.IsVisible) = true
  · rw [if_pos hg]; exact h
  · rw [if_neg hg]
    show Inv (selectRow cfg s s.selected)
    unfold selectRow
    cases s.selected with
    | none => exact inv_Clear _ h
    | some ix => exact inv_selectLoop _ _ _ h

theorem inv_Autocomplete (cfg : Config) (s : Autocompleter) (buf : List Char)
    (cur : Nat) (h : Inv s) : Inv (Autocomplete cfg s buf cur) := by
  obtain ⟨h1, h2, h3, h4⟩ := h
  have hsess : SessInv ({ s with buffer := buf } : Autocompleter) :=
    sessInv_congr s _ h4 rfl rfl le_rfl
  have hlive : (cancelPrev { s with buffer := buf }).liveSessions = [] :=
    cancelPrev_liveSessions _ hsess
  simp only [Autocomplete]
  by_cases hp : s.paused = true
  · rw [if_pos (by simp [hp])]
    rw [hide_eq _ (by simp [h1])]
    exact ⟨rfl, by simp, by simp, by simp [hlive], by simp⟩
  · have hp' : s.paused = false := by revert hp; cases s.paused <;> simp
    rw [if_neg (by simp [hp'])]
    cases hx : extractWord cfg buf cur with
    | abort st en =>
      dsimp only
      rw [hide_eq _ (by simp [h1])]
      exact ⟨rfl, by simp, by simp, by simp [hlive], by simp⟩
    | found sr st en text =>
      dsimp only
      by_cases hcc : cfg.cancelOnChange = true
      · rw [if_pos hcc]
        by_cases hres : (sr.search (st, en) text).length = 0
        · rw [if_pos hres]
          rw [hide_eq _ (by simp [h1])]
          refine ⟨rfl, by simp, by simp, ?_, ?_⟩
          · simp [hlive, List.erase_cons, Option.toList]
          · intro id hid
            simp [Option.mem_def] at hid ⊢
            omega
        · rw [if_neg hres]
          rw [show_eq _ (by simp [h1])]
          refine ⟨rfl, ?_, by simp [hp'], ?_, ?_⟩
          · constructor
            · intro _
              refine ⟨?_, by simp [hp']⟩
              simp only [List.length_eq_zero] at hres
              simpa using hres
            · intro _
              rfl
          · simp [hlive, List.erase_cons, Option.toList]
          · intro id hid
            simp [Option.mem_def] at hid ⊢
            omega
      · rw [if_neg hcc]
        by_cases hres : (sr.search (st, en) text).length = 0
        · rw [if_pos hres]
          rw [hide_eq _ (by simp [h1])]
          refine ⟨rfl, by simp, by simp, ?_, by simp⟩
          simp [hlive, Option.toList]
        · rw [if_neg hres]
          rw [show_eq _ (by simp [h1])]
          refine ⟨rfl, ?_, by simp [hp'], ?_, by simp⟩
          · constructor
            · intro _
              refine ⟨?_, by simp [hp']⟩
              simp only [List.length_eq_zero] at hres
              simpa using hres
            · intro _
              rfl
          · simp [hlive, Option.toList]

theorem inv_step (cfg : Config) (s : Autocompleter) (op : Op) (h : Inv s) :
    Inv (step cfg s op) := by
  cases op with
  | autocomplete buf cursor => exact inv_Autocomplete cfg s buf cursor h
  | clear => exact inv_Clear s h
  | pause => exact inv_Pause s h
  | unpause => exact inv_Unpause s h
  | select => exact inv_Select cfg s h
  | moveUp => exact inv_move s false h
  | moveDown => exact inv_move s true h

theorem inv_foldl (cfg : Config) (ops : List Op) (s : Autocompleter) (h : Inv s) :
    Inv (ops.foldl (step cfg) s) := by
  induction ops generalizing s with
  | nil => exact h
  | cons op rest ih => exact ih _ (inv_step cfg s op h)

/-- Every state reachable by a sequence of public operations from a fresh
autocompleter satisfies the invariant. -/
theorem inv_run (cfg : Config) (ops : List Op) : Inv (run cfg ops) :=
  inv_foldl cfg ops New inv_New

/-! ### Helper characterizations -/

@[simp] theorem hide_buffer (s : Autocompleter) : (hide s).buffer = s.buffer := by
  unfold hide; split <;> rfl

@[simp] theorem hide_startPos (s : Autocompleter) : (hide s).startPos = s.startPos := by
  unfold hide; split <;> rfl

@[simp] theorem hide_endPos (s : Autocompleter) : (hide s).endPos = s.endPos := by
  unfold hide; split <;> rfl

@[simp] theorem hide_listRows (s : Autocompleter) : (hide s).listRows = s.listRows := by
  unfold hide; split <;> rfl

@[simp] theorem hide_selected (s : Autocompleter) : (hide s).selected = s.selected := by
  unfold hide; split <;> rfl

@[simp] theorem hide_cancelTok (s : Autocompleter) : (hide s).cancelTok = s.cancelTok := by
  unfold hide; split <;> rfl

@[simp] theorem hide_liveSessions (s : Autocompleter) :
    (hide s).liveSessions = s.liveSessions := by
  unfold hide; split <;> rfl

@[simp] theorem hide_nextSession (s : Autocompleter) :
    (hide s).nextSession = s.nextSession := by
  unfold hide; split <;> rfl

@[simp] theorem hide_paused (s : Autocompleter) : (hide s).paused = s.paused := by
  unfold hide; split <;> rfl

@[simp] theorem hide_searchLog (s : Autocompleter) : (hide s).searchLog = s.searchLog := by
  unfold hide; split <;> rfl

/-- Running one more operation after a sequence. -/
theorem run_snoc (cfg : Config) (ops : List Op) (op : Op) :
    run cfg (ops ++ [op]) = step cfg (run cfg ops) op := by
  simp [run, List.foldl_append]

/-- `Clear` on a visible state with consistent flags: teardown. -/
theorem Clear_visible (s : Autocompleter) (hv : s.IsVisible = true)
    (hpp : s.popVisible = s.poppedUp) :
    Clear s = (true,
      { s with listRows := [], selected := none,
               popVisible := false, poppedUp := false }) := by
  unfold Clear
  rw [if_neg (by simp [hv])]
  rw [show hide (clear s) = _ from hide_eq (clear s) (by simpa using hpp)]
  rfl

/-- `Clear` on a non-visible state: no-op. -/
theorem Clear_hidden (s : Autocompleter) (hv : s.IsVisible = false) :
    Clear s = (false, s) := by
  unfold Clear
  rw [if_pos (by simp [hv])]

/-- `Clear` either no-ops on a hidden state or tears a visible state
down. -/
theorem Clear_cases (s : Autocompleter) :
    (s.IsVisible = false ∧ Clear s = (false, s))
    ∨ (s.IsVisible = true ∧ Clear s = (true, hide (clear s))) := by
  by_cases hv : s.IsVisible = true
  · right
    refine ⟨hv, ?_⟩
    unfold Clear
    rw [if_neg (by simp [hv])]
  · left
    have hv' : s.IsVisible = false := by revert hv; cases s.IsVisible <;> simp
    exact ⟨hv', Clear_hidden s hv'⟩

/-- `move` with the selection on row `i` of a non-empty list. -/
theorem move_selected (s : Autocompleter) (i : Nat) (down : Bool)
    (hsel : s.selected = some i) (hi : i < s.listRows.length) :
    move s down = (true, { s with selected := some (
      if down then (if i + 1 = s.listRows.length then 0 else i + 1)
      else (if i = 0 then s.listRows.length - 1 else i - 1)) }) := by
  unfold move
  rw [if_neg (by simp only [beq_iff_eq]; omega)]
  rw [hsel]

/-- The callback loop stops at the first handling callback: everything
before it refused, everything after it is never consulted. -/
theorem selectLoop_first_handles (pre post : List (SelectedData → Bool))
    (f : SelectedData → Bool) (d : SelectedData) (s : Autocompleter)
    (hpre : ∀ g ∈ pre, g d = false) (hf : f d = true) :
    selectLoop (pre ++ f :: post) d s
      = (Clear { s with buffer := insertAt s.buffer d.bounds.2 ' ' }).2 := by
  induction pre with
  | nil =>
    rw [List.nil_append]
    unfold selectLoop
    rw [if_pos hf]
  | cons g gs ih =>
    rw [List.cons_append]
    unfold selectLoop
    rw [if_neg (by simp [hpre g (List.mem_cons_self g gs)])]
    exact ih (fun g' hg' => hpre g' (List.mem_cons_of_mem _ hg'))

/-- The callback loop is the identity when every callback refuses. -/
theorem selectLoop_none_handles (fs : List (SelectedData → Bool))
    (d : SelectedData) (s : Autocompleter) (h : ∀ g ∈ fs, g d = false) :
    selectLoop fs d s = s := by
  induction fs with
  | nil => rfl
  | cons g gs ih =>
    unfold selectLoop
    rw [if_neg (by simp [h g (List.mem_cons_self g gs)])]
    exact ih (fun g' hg' => h g' (List.mem_cons_of_mem _ hg'))

/-- While paused, `Autocomplete` short-circuits after cancelling and
clearing: no extraction, no searcher call, no session. -/
theorem autocomplete_paused (cfg : Config) (s : Autocompleter) (buf : List Char)
    (cur : Nat) (hp : s.paused = true) :
    Autocomplete cfg s buf cur = hide (clear (cancelPrev { s with buffer := buf })) := by
  simp only [Autocomplete]
  rw [if_pos (by simp [hp])]

/-- Whenever `Autocomplete` produces rendered rows, the selection is on
row 0 and the popover is visible. -/
theorem autocomplete_nonempty_sel (cfg : Config) (s : Autocompleter)
    (buf : List Char) (cur : Nat) (h1 : s.popVisible = s.poppedUp)
    (hne : (Autocomplete cfg s buf cur).listRows ≠ []) :
    (Autocomplete cfg s buf cur).selected = some 0
    ∧ (Autocomplete cfg s buf cur).popVisible = true := by
  revert hne
  simp only [Autocomplete]
  by_cases hp : s.paused = true
  · rw [if_pos (by simp [hp])]
    rw [hide_eq _ (by simp [h1])]
    intro hne
    simp at hne
  · rw [if_neg (by simp only [clear_paused, cancelPrev_paused]; simpa using hp)]
    cases hx : extractWord cfg buf cur with
    | abort st en =>
      dsimp only
      rw [hide_eq _ (by simp [h1])]
      intro hne
      simp at hne
    | found sr st en text =>
      dsimp only
      by_cases hcc : cfg.cancelOnChange = true
      · rw [if_pos hcc]
        by_cases hres : (sr.search (st, en) text).length = 0
        · rw [if_pos hres]
          rw [hide_eq _ (by simp [h1])]
          intro hne
          simp [List.length_eq_zero.mp hres] at hne
        · rw [if_neg hres]
          rw [show_eq _ (by simp [h1])]
          intro _
          exact ⟨rfl, rfl⟩
      · rw [if_neg hcc]
        by_cases hres : (sr.search (st, en) text).length = 0
        · rw [if_pos hres]
          rw [hide_eq _ (by simp [h1])]
          intro hne
          simp [List.length_eq_zero.mp hres] at hne
        · rw [if_neg hres]
          rw [show_eq _ (by simp [h1])]
          intro _
          exact ⟨rfl, rfl⟩

/-! ### Claim theorems -/

/-- C1: for every sequence of public operations (in particular every
sequence of `Autocomplete` calls), at most one search session context is
uncancelled at any reachable state: each `Autocomplete` call first cancels
and discards the previously stored session context (lines 244-247) before
creating a new one, and the timeout context is always cancelled by the
deferred `cancel` before the call returns. -/
theorem c1_at_most_one_uncancelled_session (cfg : Config) (ops : List Op) :
    (run cfg ops).liveSessions.length ≤ 1 := by
  have h := (inv_run cfg ops).2.2.2.1
  rw [h]
  cases (run cfg ops).cancelTok <;> simp [Option.toList]

/-- C2: at the return of every public operation on a fresh autocompleter,
the popover is shown if and only if the rendered result list is non-empty
and the autocompleter is not paused. -/
theorem c2_popover_iff_rows_and_unpaused (cfg : Config) (ops : List Op) :
    (run cfg ops).popVisible = true ↔
      (run cfg ops).listRows ≠ [] ∧ (run cfg ops).paused = false :=
  (inv_run cfg ops).2.1

/-- C3 (divergence): on the buffer `hello @world foo` with the cursor at
offset 10 (between the `r` and the `l` of `world`), a searcher registered
for `@` and minimum length 1, `Autocomplete` invokes the searcher with the
query `worl` and records and passes bounds `(6, 11)`, which span `@worl` —
not `world` / `@world` as the claim states: the `BackwardChar` at line 296
steps over the final `d` because the extracted text range already excludes
the space the forward scan stopped at. -/
theorem c3_extraction_divergence :
    (run c3cfg [Op.autocomplete c3buf 10]).searchLog = [((6, 11), "worl")]
    ∧ (run c3cfg [Op.autocomplete c3buf 10]).startPos = 6
    ∧ (run c3cfg [Op.autocomplete c3buf 10]).endPos = 11
    ∧ textBetween c3buf 6 11 = "@worl"
    ∧ "worl" ≠ "world" := by
  refine ⟨?_, ?_, ?_, ?_, ?_⟩ <;> decide

/-- C4 (divergence): when the searcher returns nine candidates, the loop
at lines 329-339 renders all nine rows; `MaxResults` is only used as the
initial capacity of the row slice (line 160) and never bounds the rendered
rows, contradicting the claim (and the constant's own doc comment). -/
theorem c4_renders_beyond_max_results :
    (run c4cfg [Op.autocomplete c4buf 4]).listRows.length = 9
    ∧ MaxResults < (run c4cfg [Op.autocomplete c4buf 4]).listRows.length := by
  refine ⟨?_, ?_⟩ <;> decide

/-- C5: selecting a highlighted row runs the registered callbacks in
registration order; at the first callback returning true the loop stops
(the result does not depend on later callbacks), exactly one space is
inserted at the end position of the match range, and the popover is
cleared and hidden; if every callback returns false the state is left
completely unchanged. -/
theorem c5_selection_callback_chain :
    (∀ (cfg : Config) (s : Autocompleter) (ix : Nat)
        (pre post : List (SelectedData → Bool)) (f : SelectedData → Bool),
        cfg.onSelects = pre ++ f :: post →
        (∀ g ∈ pre, g (selData s ix) = false) →
        f (selData s ix) = true →
        s.IsVisible = true →
        s.popVisible = s.poppedUp →
          (selectRow cfg s (some ix)).buffer = insertAt s.buffer s.endPos ' '
          ∧ (selectRow cfg s (some ix)).listRows = []
          ∧ (selectRow cfg s (some ix)).popVisible = false
          ∧ ∀ post' : List (SelectedData → Bool),
              selectRow { cfg with onSelects := pre ++ f :: post' } s (some ix)
                = selectRow cfg s (some ix))
    ∧ (∀ (cfg : Config) (s : Autocompleter) (ix : Nat),
        (∀ g ∈ cfg.onSelects, g (selData s ix) = false) →
          selectRow cfg s (some ix) = s) := by
  constructor
  · intro cfg s ix pre post f hcb hpre hf hv hpp
    have hmain : selectRow cfg s (some ix)
        = (Clear { s with buffer := insertAt s.buffer s.endPos ' ' }).2 := by
      unfold selectRow
      rw [hcb]
      exact selectLoop_first_handles pre post f (selData s ix) s hpre hf
    have hvis : ({ s with buffer := insertAt s.buffer s.endPos ' ' }
        : Autocompleter).IsVisible = true := hv
    have hclear := Clear_visible { s with buffer := insertAt s.buffer s.endPos ' ' }
        hvis (by simpa using hpp)
    refine ⟨?_, ?_, ?_, ?_⟩
    · rw [hmain, hclear]
    · rw [hmain, hclear]
    · rw [hmain, hclear]
    · intro post'
      rw [hmain]
      show selectLoop ({ cfg with onSelects := pre ++ f :: post' }
          : Config).onSelects (selData s ix) s = _
      exact selectLoop_first_handles pre post' f (selData s ix) s hpre hf
  · intro cfg s ix hall
    unfold selectRow
    exact selectLoop_none_handles cfg.onSelects (selData s ix) s hall

/-- C6: `Pause` immediately empties the result list and hides the popover;
while paused, every `Autocomplete` call returns with the popover hidden
and no rows, and never invokes a searcher (the search log is unchanged);
`Unpause` only resets the flag. -/
theorem c6_pause_discipline :
    (∀ (cfg : Config) (ops : List Op),
        (run cfg (ops ++ [Op.pause])).paused = true
        ∧ (run cfg (ops ++ [Op.pause])).listRows = []
        ∧ (run cfg (ops ++ [Op.pause])).popVisible = false)
    ∧ (∀ (cfg : Config) (ops : List Op) (buf : List Char) (cur : Nat),
        (run cfg ops).paused = true →
          (step cfg (run cfg ops) (Op.autocomplete buf cur)).popVisible = false
          ∧ (step cfg (run cfg ops) (Op.autocomplete buf cur)).listRows = []
          ∧ (step cfg (run cfg ops) (Op.autocomplete buf cur)).searchLog
              = (run cfg ops).searchLog)
    ∧ (∀ s : Autocompleter, Unpause s = { s with paused := false }) := by
  refine ⟨?_, ?_, fun s => rfl⟩
  · intro cfg ops
    have hpaused : (run cfg (ops ++ [Op.pause])).paused = true := by
      rw [run_snoc]
      show (Pause (run cfg ops)).paused = true
      unfold Pause
      rcases Clear_cases ({ run cfg ops with paused := true } : Autocompleter)
        with ⟨-, hh⟩ | ⟨-, hh⟩ <;> simp [hh]
    obtain ⟨i1, i2, i3, -⟩ := inv_run cfg (ops ++ [Op.pause])
    have hrows := i3 hpaused
    refine ⟨hpaused, hrows, ?_⟩
    by_cases hq : (run cfg (ops ++ [Op.pause])).popVisible = true
    · exact absurd (i2.1 hq).1 (by simp [hrows])
    · revert hq; cases (run cfg (ops ++ [Op.pause])).popVisible <;> simp
  · intro cfg ops buf cur hp
    obtain ⟨i1, -, -, -⟩ := inv_run cfg ops
    have hstep : step cfg (run cfg ops) (Op.autocomplete buf cur)
        = hide (clear (cancelPrev { run cfg ops with buffer := buf })) :=
      autocomplete_paused cfg (run cfg ops) buf cur hp
    rw [hstep]
    refine ⟨?_, by simp, by simp⟩
    rw [hide_eq _ (by simp [i1])]

/-- C7: `Clear` returns true, empties the rows and hides the popover when
visible with rows; on a hidden-or-empty state it returns false and changes
nothing; and for every state whatsoever the second of two consecutive
`Clear` calls returns false. -/
theorem c7_clear_idempotent :
    (∀ (cfg : Config) (ops : List Op),
        (run cfg ops).IsVisible = true →
          (Clear (run cfg ops)).1 = true
          ∧ (Clear (run cfg ops)).2.listRows = []
          ∧ (Clear (run cfg ops)).2.popVisible = false)
    ∧ (∀ s : Autocompleter, s.IsVisible = false → Clear s = (false, s))
    ∧ (∀ s : Autocompleter, (Clear (Clear s).2).1 = false) := by
  refine ⟨?_, fun s hv => Clear_hidden s hv, ?_⟩
  · intro cfg ops hv
    obtain ⟨i1, -, -, -⟩ := inv_run cfg ops
    rw [Clear_visible (run cfg ops) hv i1]
    exact ⟨rfl, rfl, rfl⟩
  · intro s
    rcases Clear_cases s with ⟨-, hh⟩ | ⟨-, hh⟩
    · rw [hh]
      show (Clear s).1 = false
      rw [hh]
    · rw [hh]
      show (Clear (hide (clear s))).1 = false
      rw [Clear_hidden _ (by simp [IsVisible])]

/-- C8: on a non-empty result list of `N` rows with the selection at index
`i < N`, `MoveDown` returns true and selects `(i + 1) % N`, and `MoveUp`
returns true and selects `(i + (N - 1)) % N` (that is, `i - 1` modulo
`N`); in particular `MoveDown` from the last row wraps to row 0 and
`MoveUp` from row 0 wraps to row `N - 1`. -/
theorem c8_move_wraps (s : Autocompleter) (i : Nat)
    (hsel : s.selected = some i) (hi : i < s.listRows.length) :
    (MoveDown s).1 = true
    ∧ (MoveDown s).2.selected = some ((i + 1) % s.listRows.length)
    ∧ (MoveUp s).1 = true
    ∧ (MoveUp s).2.selected
        = some ((i + (s.listRows.length - 1)) % s.listRows.length) := by
  have hd := move_selected s i true hsel hi
  have hu := move_selected s i false hsel hi
  unfold MoveDown MoveUp
  rw [hd, hu]
  rw [if_pos (show true = true from rfl), if_neg (show ¬false = true by simp)]
  refine ⟨rfl, ?_, rfl, ?_⟩
  · show some (if i + 1 = s.listRows.length then 0 else i + 1) = _
    by_cases hEnd : i + 1 = s.listRows.length
    · rw [if_pos hEnd, hEnd, Nat.mod_self]
    · rw [if_neg hEnd, Nat.mod_eq_of_lt (by omega)]
  · show some (if i = 0 then s.listRows.length - 1 else i - 1) = _
    by_cases h0 : i = 0
    · rw [if_pos h0, h0, Nat.zero_add, Nat.mod_eq_of_lt (by omega)]
    · rw [if_neg h0]
      have harith : i + (s.listRows.length - 1) = (i - 1) + s.listRows.length := by
        omega
      rw [harith, Nat.add_mod_right, Nat.mod_eq_of_lt (by omega)]

/-- C10: whenever an `Autocomplete` call on a reachable state produces a
non-empty rendered result list, row 0 is the selected row and the popover
is visible, so an immediate `Select` with no prior navigation applies the
row at index 0. -/
theorem c10_first_row_selected (cfg : Config) (ops : List Op)
    (buf : List Char) (cur : Nat)
    (h : (step cfg (run cfg ops) (Op.autocomplete buf cur)).listRows ≠ []) :
    (step cfg (run cfg ops) (Op.autocomplete buf cur)).selected = some 0
    ∧ (step cfg (run cfg ops) (Op.autocomplete buf cur)).popVisible = true
    ∧ (Select cfg (step cfg (run cfg ops) (Op.autocomplete buf cur))).2
        = selectRow cfg (step cfg (run cfg ops) (Op.autocomplete buf cur))
            (some 0) := by
  obtain ⟨i1, -, -, -⟩ := inv_run cfg ops
  have hsel : (step cfg (run cfg ops) (Op.autocomplete buf cur)).selected = some 0
      ∧ (step cfg (run cfg ops) (Op.autocomplete buf cur)).popVisible = true :=
    autocomplete_nonempty_sel cfg (run cfg ops) buf cur i1 h
  have hlen : (step cfg (run cfg ops) (Op.autocomplete buf cur)).listRows.length
      ≠ 0 := by
    simpa [List.length_eq_zero] using h
  refine ⟨hsel.1, hsel.2, ?_⟩
  unfold Select
  rw [if_neg (by simp [IsVisible, hlen, hsel.2])]
  rw [show (step cfg (run cfg ops)
      (Op.autocomplete buf cur)).selected = some 0 from hsel.1]

/-! ### Witnesses -/

/-- Witness for C5: on the concrete visible one-row state, the first
refusing callback is skipped, the handling callback fires, a space lands
at offset 5 of `ab cde`, the popover is torn down; with only refusing
callbacks the state is untouched. -/
theorem c5_selection_callback_chain_witness :
    (selectRow c5cfg c5s (some 0)).buffer = insertAt c5s.buffer c5s.endPos ' '
    ∧ (selectRow c5cfg c5s (some 0)).listRows = []
    ∧ (selectRow c5cfg c5s (some 0)).popVisible = false
    ∧ selectRow c5cfgAllFalse c5s (some 0) = c5s
    ∧ insertAt c5s.buffer c5s.endPos ' ' = "ab cd e".data := by
  have h := c5_selection_callback_chain.1 c5cfg c5s 0 [cbFalse] [cbTrue] cbTrue
    rfl
    (by
      intro g hg
      rw [List.mem_singleton] at hg
      subst hg
      rfl)
    rfl rfl rfl
  have h2 := c5_selection_callback_chain.2 c5cfgAllFalse c5s 0 (by
    intro g hg
    rw [show c5cfgAllFalse.onSelects = [cbFalse, cbFalse] from rfl,
       List.mem_cons, List.mem_singleton] at hg
    rcases hg with hg | hg <;> (subst hg; rfl))
  exact ⟨h.1, h.2.1, h.2.2.1, h2, by decide⟩

/-- Witness for C6: after a single `Pause` on a fresh autocompleter the
paused flag is set, and an `Autocomplete` call in that state leaves the
popover hidden and the search log untouched. -/
theorem c6_pause_discipline_witness :
    (run trivialCfg [Op.pause]).paused = true
    ∧ (step trivialCfg (run trivialCfg [Op.pause])
        (Op.autocomplete c4buf 4)).popVisible = false
    ∧ (step trivialCfg (run trivialCfg [Op.pause])
        (Op.autocomplete c4buf 4)).searchLog
        = (run trivialCfg [Op.pause]).searchLog := by
  have h := c6_pause_discipline.2.1 trivialCfg [Op.pause] c4buf 4 (by decide)
  exact ⟨by decide, h.1, h.2.2⟩

/-- Witness for C7: the two-row run is visible; its first `Clear` returns
true and tears down, a second `Clear` returns false. -/
theorem c7_clear_idempotent_witness :
    (run visCfg visOps).IsVisible = true
    ∧ (Clear (run visCfg visOps)).1 = true
    ∧ (Clear (run visCfg visOps)).2.listRows = []
    ∧ (Clear (run visCfg visOps)).2.popVisible = false
    ∧ (Clear (Clear (run visCfg visOps)).2).1 = false := by
  have h := c7_clear_idempotent.1 visCfg visOps (by decide)
  exact ⟨by decide, h.1, h.2.1, h.2.2, c7_clear_idempotent.2.2 (run visCfg visOps)⟩

/-- Witness for C8: on three rows with the selection on the last row,
`MoveDown` wraps to row 0; `MoveUp` moves back to row 1; from the state
with the selection on row 0, `MoveUp` wraps to the last row. -/
theorem c8_move_wraps_witness :
    (MoveDown c8s).1 = true
    ∧ (MoveDown c8s).2.selected = some ((2 + 1) % c8s.listRows.length)
    ∧ (MoveUp c8s).2.selected
        = some ((2 + (c8s.listRows.length - 1)) % c8s.listRows.length)
    ∧ (2 + 1) % c8s.listRows.length = 0
    ∧ (MoveUp { c8s with selected := some 0 }).2.selected
        = some ((0 + (c8s.listRows.length - 1)) % c8s.listRows.length)
    ∧ (0 + (c8s.listRows.length - 1)) % c8s.listRows.length = 2 := by
  have h := c8_move_wraps c8s 2 rfl (by decide)
  have h0 := c8_move_wraps { c8s with selected := some 0 } 0 rfl (by decide)
  exact ⟨h.1, h.2.1, h.2.2.2, by decide, h0.2.2.2, by decide⟩

/-- Witness for C10: the two-row run renders rows, so row 0 is selected
and the popover is visible. -/
theorem c10_first_row_selected_witness :
    (step visCfg (run visCfg []) (Op.autocomplete "@hi".data 3)).selected = some 0
    ∧ (step visCfg (run visCfg []) (Op.autocomplete "@hi".data 3)).popVisible
        = true := by
  have h := c10_first_row_selected visCfg [] "@hi".data 3 (by decide)
  exact ⟨h.1, h.2.1⟩

end Autocompleter

/-! ### Claim theorem for the viewer -/

namespace Embed

/-- C9: when the network fetch of the media URL fails, `saveToFile` adds
exactly one toast notification, returns without ever calling `os.Create`
or `io.Copy` (so no output file, even partial, is created), and — the Go
method having no return values — propagates no error to its caller. -/
theorem c9_fetch_failure_one_toast_no_file (env : SaveEnv) (e : String)
    (h : env.httpGet = .error e) :
    ((saveToFile env).countP Effect.isToast = 1)
    ∧ Effect.createFile ∉ saveToFile env
    ∧ Effect.writeFile ∉ saveToFile env
    ∧ saveToFile env
        = [.addToast downloadErrToast, .logLine (downloadErrToast ++ ": " ++ e)] := by
  unfold saveToFile
  rw [h]
  refine ⟨rfl, by simp, by simp, rfl⟩

/-- Witness for C9: the concrete failing-fetch environment yields exactly
one toast and no file creation. -/
theorem c9_fetch_failure_one_toast_no_file_witness :
    ((saveToFile failingFetchEnv).countP Effect.isToast = 1)
    ∧ Effect.createFile ∉ saveToFile failingFetchEnv
    ∧ Effect.writeFile ∉ saveToFile failingFetchEnv := by
  have h := c9_fetch_failure_one_toast_no_file failingFetchEnv "connection refused" rfl
  exact ⟨h.1, h.2.1, h.2.2.1⟩

end Embed

end Chatkit
